import Mathlib

/-!
Verification of the docling-surya Region OCR Adapter
(`docling_surya/plugin.py`): a shallow embedding of the page-to-text-cell
conversion glue of `SuryaOcrModel.__call__`, of the enabled-construction
path of `SuryaOcrModel.__init__`, and of the plugin-identity surface
(`SuryaOcrOptions.kind`, `get_options_type`, `ocr_engines`).

Coordinates are modelled as rationals (the Python code computes with
floats on exact small inputs; division by the scale factor must be exact).
The external collaborators (page source, region selector, recognition
capability) are parameters of the embedded functions, exactly at the
granularity the code consumes them.
-/

namespace DoclingSurya

/-- Axis-aligned rectangle, TOPLEFT origin, as the docling `BoundingBox`
used for OCR rects and for the constructed cell rectangles. -/
structure BBox where
  l : ℚ
  t : ℚ
  r : ℚ
  b : ℚ
deriving Repr, DecidableEq

/-- The rectangle's `area()`: width times height. Zero exactly when the
rect is degenerate (left == right or top == bottom for ordered rects). -/
def BBox.area (bb : BBox) : ℚ := (bb.r - bb.l) * (bb.b - bb.t)

/-- One recognised text line of a capability result (`tl` in the code):
`bbox` is the local pixel box (x0, y0, x1, y1) in the rendered crop,
plus recognised `text` and `confidence`. -/
structure TextLine where
  bbox : ℚ × ℚ × ℚ × ℚ
  text : String
  confidence : ℚ
deriving Repr, DecidableEq

/-- One per-image result of the recognition capability (`pred` in the
code), exposing its ordered `text_lines`. -/
structure OcrResult where
  text_lines : List TextLine
deriving Repr, DecidableEq

/-- The docling `TextCell` as constructed by the adapter. -/
structure TextCell where
  index : Nat
  text : String
  orig : String
  confidence : ℚ
  from_ocr : Bool
  rect : BBox
deriving Repr, DecidableEq

/-- Scale factor `self.scale = 3` set in `SuryaOcrModel.__init__` (72 dpi to 216 dpi);
used both to render each crop and to inverse-scale recognition output. -/
def scale : ℚ := 3

/-- The flattening comprehension
`[(tl.bbox, tl.text, tl.confidence) for pred in preds for tl in pred.text_lines]`. -/
def flattenPreds (preds : List OcrResult) : List ((ℚ × ℚ × ℚ × ℚ) × String × ℚ) :=
  preds.flatMap fun pred => pred.text_lines.map fun tl => (tl.bbox, tl.text, tl.confidence)

/-- One `TextCell(...)` of the cell comprehension: index `i`, the triple's
text as both `text` and `orig`, `from_ocr=True`, and the page-space box
`(bbox[0]/scale + rect.l, bbox[1]/scale + rect.t,
  bbox[2]/scale + rect.l, bbox[3]/scale + rect.t)` in TOPLEFT origin. -/
def mkCell (rect : BBox) (i : Nat) (p : (ℚ × ℚ × ℚ × ℚ) × String × ℚ) : TextCell :=
  { index := i
    text := p.2.1
    orig := p.2.1
    confidence := p.2.2
    from_ocr := true
    rect :=
      { l := p.1.1 / scale + rect.l
        t := p.1.2.1 / scale + rect.t
        r := p.1.2.2.1 / scale + rect.l
        b := p.1.2.2.2 / scale + rect.t } }

/-- What one iteration of the region loop contributes: the cells it
appends to `all_cells`, whether it invoked the recognition capability,
and whether it logged the empty-result warning. -/
structure RegionOutcome where
  cells : List TextCell
  invoked : Bool
  warned : Bool
deriving Repr, DecidableEq

/-- The body of `for rect in ocr_rects` in `SuryaOcrModel.__call__`:
skip zero-area rects silently; render the crop at `scale` and invoke the
recognition capability on the single-image batch (the capability argument
receives the render scale and cropbox that determine the image); on an
empty `preds` list warn and skip; otherwise flatten, enumerate and build
the cells. -/
def processRegion (recognize : ℚ → BBox → List OcrResult) (rect : BBox) : RegionOutcome :=
  if rect.area = 0 then { cells := [], invoked := false, warned := false }
  else
    let preds := recognize scale rect
    if preds = [] then { cells := [], invoked := true, warned := true }
    else
      let result := flattenPreds preds
      { cells := result.enum.map fun p => mkCell rect p.1 p.2
        invoked := true
        warned := false }

/-- The per-page accumulation across the region loop: `all_cells`, the
number of recognition invocations, and the number of warnings logged. -/
structure OcrTrace where
  all_cells : List TextCell
  recogCalls : Nat
  warnings : Nat
deriving Repr, DecidableEq

/-- One loop iteration folded into the accumulated trace
(`all_cells.extend(cells)` plus the observable capability/warning count). -/
def stepRegion (recognize : ℚ → BBox → List OcrResult) (acc : OcrTrace) (rect : BBox) :
    OcrTrace :=
  let o := processRegion recognize rect
  { all_cells := acc.all_cells ++ o.cells
    recogCalls := acc.recogCalls + (if o.invoked then 1 else 0)
    warnings := acc.warnings + (if o.warned then 1 else 0) }

/-- The whole region loop of one page: fold over `ocr_rects` starting
from `all_cells = []` and zero counters. -/
def processRects (recognize : ℚ → BBox → List OcrResult) (rects : List BBox) : OcrTrace :=
  rects.foldl (stepRegion recognize) { all_cells := [], recogCalls := 0, warnings := 0 }

/-- The page's backing image source (`page._backend`): only its
`is_valid()` answer is consumed on the control path modelled here. -/
structure Backend where
  valid : Bool
deriving Repr, DecidableEq

/-- A pipeline page: optional backend and the region selector's output
`get_ocr_rects(page)` for it. -/
structure Page where
  backend : Option Backend
  ocr_rects : List BBox
deriving Repr, DecidableEq

/-- What `__call__` yields for one page: the page itself and, when the
OCR branch ran, the trace handed to `post_process_cells`; `posted = none`
means the page was passed through untouched (no region selection, no
recognition call, no cells). -/
structure PageResult where
  page : Page
  posted : Option OcrTrace
deriving Repr, DecidableEq

/-- Per-page dispatch of `__call__`: a page whose backend is absent or
invalid is yielded unchanged; otherwise the region loop runs and its
trace is handed to the cell sink. The capability is page-dependent
(the rendered image depends on the page, the render scale and cropbox). -/
def processPage (recognize : Page → ℚ → BBox → List OcrResult) (page : Page) : PageResult :=
  match page.backend with
  | none => { page := page, posted := none }
  | some be =>
      if be.valid then
        { page := page, posted := some (processRects (recognize page) page.ocr_rects) }
      else { page := page, posted := none }

/-- Model of `SuryaOcrModel.__call__` over a finite page batch: when disabled,
`yield from page_batch` (every page passes through, no OCR activity);
when enabled, each page goes through `processPage` in order. -/
def modelCall (enabled : Bool) (recognize : Page → ℚ → BBox → List OcrResult)
    (page_batch : List Page) : List PageResult :=
  if enabled then page_batch.map (processPage recognize)
  else page_batch.map fun p => { page := p, posted := none }

/-- Python errors relevant to the enabled-construction path of
`SuryaOcrModel.__init__`: the dedicated capability-unavailable error the
`raise` statement names (carrying the install hint), versus the
`NameError` Python raises when the name at the raise site is unbound. -/
inductive PyErr
  | importOcrError (msg : String)
  | nameError (missing : String)
deriving Repr, DecidableEq

/-- Names bound in the module scope of `docling_surya/plugin.py`
(its imports and module-level definitions). Python resolves a bare name
at a raise site against local, enclosing, module and builtin scopes;
`ImportOcrError` is in none of these (it is also not a Python builtin). -/
def moduleScopeNames : List String :=
  ["logging", "os", "Iterable", "Path", "ClassVar", "Literal", "Optional", "Type",
   "BoundingBox", "CoordOrigin", "BoundingRectangle", "TextCell",
   "AcceleratorOptions", "Page", "ConversionResult", "OcrOptions", "settings",
   "BaseOcrModel", "TimeRecorder", "_log", "SuryaOcrOptions", "SuryaOcrModel",
   "ocr_engines"]

/-- The enabled-construction path of `SuryaOcrModel.__init__`: when
enabled and the `surya` imports succeed, construction proceeds; when they
fail, the code executes `raise ImportOcrError("surya-ocr not installed...")`,
which first evaluates the name `ImportOcrError` — if that name resolved,
the dedicated error would be raised, but since it is unbound the statement
itself raises `NameError`. Disabled construction touches none of this. -/
def suryaInit (enabled : Bool) (suryaImportable : Bool) : Except PyErr Unit :=
  if enabled then
    if suryaImportable then Except.ok ()
    else if moduleScopeNames.contains "ImportOcrError" then
      Except.error (PyErr.importOcrError
        "surya-ocr not installed. Install via `uv add surya-ocr` or `pip install surya-ocr`.")
    else Except.error (PyErr.nameError "ImportOcrError")
  else Except.ok ()

/-- The model classes exported by the plugin module (only one). -/
inductive ModelClass
  | suryaOcrModel
deriving Repr, DecidableEq

/-- The options schemas exported by the plugin module (only one). -/
inductive OptionsType
  | suryaOcrOptions
deriving Repr, DecidableEq

/-- Field `SuryaOcrOptions.kind`: the ClassVar literal `"suryaocr"`. -/
def OptionsType.kind : OptionsType → String
  | .suryaOcrOptions => "suryaocr"

/-- Classmethod `SuryaOcrModel.get_options_type()` returns `SuryaOcrOptions`. -/
def get_options_type : ModelClass → OptionsType
  | .suryaOcrModel => .suryaOcrOptions

/-- The plugin factory `ocr_engines()`:
`return {"ocr_engines": [SuryaOcrModel]}`. -/
def ocr_engines : List (String × List ModelClass) :=
  [("ocr_engines", [ModelClass.suryaOcrModel])]

/-- The tag under which the host factory registers a listed engine class:
the `kind` of the class's declared options type. -/
def registrationTag (m : ModelClass) : String := (get_options_type m).kind

/-- The identifier documented for this plugin (spec §6 and the repo's
example: `ocr_model="suryaocr"`). -/
def documentedIdentifier : String := "suryaocr"

/-- Concrete text line: local bbox (0,0,3,3), text "a", confidence 1. -/
def lineC1 : TextLine := { bbox := (0, 0, 3, 3), text := "a", confidence := 1 }

/-- Concrete capability returning one result with one line for any crop. -/
def recogC1 (_page : Page) (_s : ℚ) (_rect : BBox) : List OcrResult :=
  [{ text_lines := [lineC1] }]

/-- Two disjoint non-degenerate regions on one page. -/
def rectsC1 : List BBox := [⟨0, 0, 10, 10⟩, ⟨20, 0, 30, 10⟩]

/-- A page with a valid backend and the two regions above. -/
def pageC1 : Page := { backend := some { valid := true }, ocr_rects := rectsC1 }

/-- The OCR trace the adapter posts for `pageC1` under `recogC1`. -/
def trC1 : OcrTrace := processRects (recogC1 pageC1) rectsC1

/-- Concrete text line with local bbox (30, 60, 90, 120). -/
def lineC3 : TextLine := { bbox := (30, 60, 90, 120), text := "hello", confidence := 19/20 }

/-- Concrete capability returning exactly that line for any crop. -/
def recogC3 (_s : ℚ) (_rect : BBox) : List OcrResult := [{ text_lines := [lineC3] }]

/-- Region with origin (50, 100) and positive area. -/
def rectC3 : BBox := ⟨50, 100, 150, 200⟩

/-- A degenerate region: left == right, hence area 0. -/
def rectC4 : BBox := ⟨5, 7, 5, 9⟩

/-- Concrete capability for the zero-area-skip witness. -/
def recogC4 (_s : ℚ) (_rect : BBox) : List OcrResult :=
  [{ text_lines := [{ bbox := (0, 0, 3, 3), text := "x", confidence := 1 }] }]

/-- Non-degenerate regions surrounding the degenerate one. -/
def preC4 : List BBox := [⟨0, 0, 10, 10⟩]

/-- Region after the degenerate one. -/
def postC4 : List BBox := [⟨20, 0, 30, 10⟩]

/-- A page whose backend reports itself invalid. -/
def pageC6 : Page := { backend := some { valid := false }, ocr_rects := [⟨0, 0, 10, 10⟩] }

/-- A later page with a valid backend and no OCR regions. -/
def pageC6b : Page := { backend := some { valid := true }, ocr_rects := [] }

/-- Capability for the invalid-backend witness. -/
def recogC6 (_page : Page) (_s : ℚ) (_rect : BBox) : List OcrResult := []

/-- First region of the empty-result witness (capability returns []). -/
def r1C7 : BBox := ⟨0, 0, 10, 10⟩

/-- Second region of the empty-result witness (capability succeeds). -/
def r2C7 : BBox := ⟨20, 0, 30, 10⟩

/-- Capability returning nothing for the region at left 0 and one line
elsewhere. -/
def recogC7 (_s : ℚ) (rect : BBox) : List OcrResult :=
  if rect.l = 0 then []
  else [{ text_lines := [{ bbox := (3, 3, 6, 6), text := "y", confidence := 1 }] }]

/-- Region inside a 200 x 300 page. -/
def rectC9 : BBox := ⟨10, 20, 110, 120⟩

/-- Capability returning a line spanning the whole rendered crop of
`rectC9` (local box within [0, 300] x [0, 300]). -/
def recogC9 (_s : ℚ) (_rect : BBox) : List OcrResult :=
  [{ text_lines := [{ bbox := (0, 0, 300, 300), text := "z", confidence := 1 }] }]

/-- Region for the empty-text-lines witness. -/
def rectC10 : BBox := ⟨0, 0, 10, 10⟩

/-- Capability returning a non-empty result list whose single result has
no text lines. -/
def recogC10 (_s : ℚ) (_rect : BBox) : List OcrResult := [{ text_lines := [] }]

/-- A local bbox (x0, y0, x1, y1) lies within the rendered crop of
`rect`: each x between 0 and scale times the region width, each y
between 0 and scale times the region height. -/
def inCrop (rect : BBox) (q : ℚ × ℚ × ℚ × ℚ) : Prop :=
  0 ≤ q.1 ∧ q.1 ≤ scale * (rect.r - rect.l) ∧
  0 ≤ q.2.1 ∧ q.2.1 ≤ scale * (rect.b - rect.t) ∧
  0 ≤ q.2.2.1 ∧ q.2.2.1 ≤ scale * (rect.r - rect.l) ∧
  0 ≤ q.2.2.2 ∧ q.2.2.2 ≤ scale * (rect.b - rect.t)

/-- A box lies within the page coordinate space of a pw x ph page
(TOPLEFT origin): all four coordinates within the page bounds. -/
def insidePage (pw ph : ℚ) (bb : BBox) : Prop :=
  0 ≤ bb.l ∧ bb.l ≤ pw ∧ 0 ≤ bb.r ∧ bb.r ≤ pw ∧
  0 ≤ bb.t ∧ bb.t ≤ ph ∧ 0 ≤ bb.b ∧ bb.b ≤ ph

/-- An ordered region lying within the bounds of a pw x ph page. -/
def regionInPage (pw ph : ℚ) (rect : BBox) : Prop :=
  0 ≤ rect.l ∧ rect.r ≤ pw ∧ 0 ≤ rect.t ∧ rect.b ≤ ph ∧
  rect.l ≤ rect.r ∧ rect.t ≤ rect.b

/-! Helper lemmas about the region loop. -/

/-- Folding the region loop from any accumulator appends, per region in
order, that region's cells, and adds its invocation and warning counts. -/
theorem foldl_stepRegion (recognize : ℚ → BBox → List OcrResult) (rects : List BBox)
    (acc : OcrTrace) :
    List.foldl (stepRegion recognize) acc rects =
      { all_cells := acc.all_cells ++ rects.flatMap fun r => (processRegion recognize r).cells
        recogCalls := acc.recogCalls + (rects.countP fun r => (processRegion recognize r).invoked)
        warnings := acc.warnings + (rects.countP fun r => (processRegion recognize r).warned) } := by
  induction rects generalizing acc with
  | nil =>
      cases acc
      simp
  | cons r rs ih =>
      rw [List.foldl_cons, ih]
      cases acc with
      | mk cells calls warns =>
        simp [stepRegion, List.countP_cons]
        constructor
        · split <;> omega
        · split <;> omega

/-- Closed form of the whole region loop of one page. -/
theorem processRects_eq (recognize : ℚ → BBox → List OcrResult) (rects : List BBox) :
    processRects recognize rects =
      { all_cells := rects.flatMap fun r => (processRegion recognize r).cells
        recogCalls := rects.countP fun r => (processRegion recognize r).invoked
        warnings := rects.countP fun r => (processRegion recognize r).warned } := by
  rw [processRects, foldl_stepRegion]
  simp

/-- The second component of an enumerated-list member is a list member. -/
theorem mem_enum_snd {α : Type} {l : List α} {p : Nat × α} (h : p ∈ l.enum) : p.2 ∈ l := by
  rw [List.enum_eq_zip_range] at h
  exact (List.of_mem_zip h).2

/-- Within one region, the constructed cells carry indices 0, 1, ...
(the per-region `enumerate` of the flattened result). -/
theorem processRegion_index_map (recognize : ℚ → BBox → List OcrResult) (rect : BBox) :
    (processRegion recognize rect).cells.map TextCell.index =
      List.range (processRegion recognize rect).cells.length := by
  by_cases h0 : rect.area = 0
  · simp [processRegion, h0]
  · by_cases hp : recognize scale rect = []
    · simp [processRegion, h0, hp]
    · simp only [processRegion, h0, hp, if_false, if_neg, List.map_map, List.length_map]
      have hc : (TextCell.index ∘ fun p : Nat × ((ℚ × ℚ × ℚ × ℚ) × String × ℚ) =>
          mkCell rect p.1 p.2) = Prod.fst := rfl
      rw [hc, List.enum_map_fst, List.enum_length]

/-! Claim theorems. -/

/-- Claim C1 is false of the code: on an enabled page with a valid
backend and two non-empty regions, the accumulated cells carry indices
[0, 0] — `enumerate(result)` restarts at 0 for each region — so the
indices are not the strictly increasing contiguous sequence 0, 1 the
claim requires across regions. -/
theorem C1_counterexample :
    modelCall true recogC1 [pageC1] = [{ page := pageC1, posted := some trC1 }] ∧
    trC1.all_cells.map TextCell.index = [0, 0] ∧
    trC1.all_cells.map TextCell.index ≠ List.range trC1.all_cells.length := by
  have h2 : trC1.all_cells.map TextCell.index = [0, 0] := by
    norm_num [trC1, processRects, stepRegion, processRegion, BBox.area, rectsC1,
      recogC1, pageC1, lineC1, flattenPreds, mkCell, scale, List.enum]
  have hl : trC1.all_cells.length = 2 := by
    have hc := congrArg List.length h2
    simpa using hc
  refine ⟨rfl, h2, ?_⟩
  rw [h2, hl]
  decide

/-- Claim C1 amended: the page's accumulated cell list is the in-order
concatenation of the per-region cell blocks, and within each region the
indices are strictly increasing and contiguous starting at 0; the
counter is reset for every region (per-region `enumerate`), not
continued across regions. -/
theorem C1_amended (recognize : ℚ → BBox → List OcrResult) (rects : List BBox) :
    (processRects recognize rects).all_cells =
      (rects.flatMap fun r => (processRegion recognize r).cells) ∧
    ∀ r : BBox, (processRegion recognize r).cells.map TextCell.index =
      List.range (processRegion recognize r).cells.length := by
  constructor
  · rw [processRects_eq]
  · intro r
    exact processRegion_index_map recognize r

/-- Claim C2 names a real intent that the code misses: constructing the
enabled adapter while the recognition backend cannot be imported fails
immediately, but with Python's `NameError` for the unbound name
`ImportOcrError` (which `plugin.py` never imports or defines), not with
the dedicated capability-unavailable error carrying the install hint
that the `raise` statement names. -/
theorem C2_import_failure_behavior :
    suryaInit true false = Except.error (PyErr.nameError "ImportOcrError") ∧
    (∀ msg : String, suryaInit true false ≠ Except.error (PyErr.importOcrError msg)) := by
  have h1 : suryaInit true false = Except.error (PyErr.nameError "ImportOcrError") := rfl
  refine ⟨h1, ?_⟩
  intro msg hmsg
  rw [h1] at hmsg
  exact PyErr.noConfusion (Except.error.inj hmsg)

/-- Claim C3: for every region with nonzero area and every recognition
triple, the emitted cells' page-space boxes are, triple for triple in
order, `(x0/3 + rect.l, y0/3 + rect.t, x1/3 + rect.l, y1/3 + rect.t)`
in TOPLEFT origin, where 3 is the fixed scale — the same `scale` the
region loop hands to the crop renderer (`recognize 3 rect` below is
literally the capability call the loop makes). -/
theorem C3_coordinate_transform (recognize : ℚ → BBox → List OcrResult) (rect : BBox)
    (h : rect.area ≠ 0) :
    (processRegion recognize rect).cells.map TextCell.rect =
      (flattenPreds (recognize 3 rect)).map fun p =>
        { l := p.1.1 / 3 + rect.l
          t := p.1.2.1 / 3 + rect.t
          r := p.1.2.2.1 / 3 + rect.l
          b := p.1.2.2.2 / 3 + rect.t : BBox } := by
  have hs : recognize 3 rect = recognize scale rect := rfl
  rw [hs]
  by_cases hp : recognize scale rect = []
  · simp [processRegion, h, hp, flattenPreds]
  · simp only [processRegion, h, hp, if_neg, if_false, List.map_map]
    conv_rhs =>
      rw [← List.enum_map_snd (flattenPreds (recognize scale rect)), List.map_map]
    rfl

/-- Claim C3 witness: region origin (50, 100), local bbox
(30, 60, 90, 120), scale 3 — the emitted cell's box is (60, 120, 80, 140). -/
theorem C3_witness :
    rectC3.area ≠ 0 ∧
    (processRegion recogC3 rectC3).cells.map TextCell.rect =
      [{ l := 60, t := 120, r := 80, b := 140 }] := by
  have ha : rectC3.area ≠ 0 := by
    norm_num [BBox.area, rectC3]
  refine ⟨ha, ?_⟩
  rw [C3_coordinate_transform recogC3 rectC3 ha]
  norm_num [recogC3, flattenPreds, rectC3, lineC3]

/-- Claim C4: a zero-area region contributes no cells, never invokes the
recognition capability, and logs nothing — it behaves exactly as if it
were absent from the region list (the capability call count over the
list excludes it). -/
theorem C4_zero_area_skip (recognize : ℚ → BBox → List OcrResult) (rect : BBox)
    (h : rect.area = 0) (pre post : List BBox) :
    processRegion recognize rect = { cells := [], invoked := false, warned := false } ∧
    processRects recognize (pre ++ rect :: post) = processRects recognize (pre ++ post) := by
  have hr : processRegion recognize rect = { cells := [], invoked := false, warned := false } := by
    simp [processRegion, h]
  refine ⟨hr, ?_⟩
  rw [processRects_eq, processRects_eq]
  simp [hr, List.countP_cons]

/-- Claim C4 witness: the degenerate rect (5, 7, 5, 9) between two live
regions changes nothing. -/
theorem C4_witness :
    rectC4.area = 0 ∧
    processRects recogC4 (preC4 ++ rectC4 :: postC4) = processRects recogC4 (preC4 ++ postC4) := by
  have h : rectC4.area = 0 := by
    norm_num [BBox.area, rectC4]
  exact ⟨h, (C4_zero_area_skip recogC4 rectC4 h preC4 postC4).2⟩

/-- Claim C5: with the adapter disabled, `__call__` is the identity on
the page stream — every input page is yielded unchanged, in order, with
no OCR activity posted for any of them. -/
theorem C5_disabled_passthrough (recognize : Page → ℚ → BBox → List OcrResult)
    (page_batch : List Page) :
    modelCall false recognize page_batch =
      page_batch.map fun p => { page := p, posted := none } := by
  rfl

/-- Claim C6: a page whose backing source is absent or reports itself
invalid is emitted unchanged — no region selection, no recognition call,
no cells posted, no error — and the remaining pages of the batch are
still processed as usual. -/
theorem C6_invalid_source_passthrough (recognize : Page → ℚ → BBox → List OcrResult)
    (page : Page) (rest : List Page)
    (h : page.backend = none ∨ ∃ be : Backend, page.backend = some be ∧ be.valid = false) :
    modelCall true recognize (page :: rest) =
      { page := page, posted := none } :: rest.map (processPage recognize) := by
  have hp : processPage recognize page = { page := page, posted := none } := by
    rcases h with h | ⟨be, hbe, hv⟩
    · simp [processPage, h]
    · simp [processPage, hbe, hv]
  simp [modelCall, hp]

/-- Claim C6 witness: a page with an invalid backend followed by a valid
page — the first passes through untouched, the second is processed. -/
theorem C6_witness :
    pageC6.backend = some { valid := false } ∧
    modelCall true recogC6 [pageC6, pageC6b] =
      [{ page := pageC6, posted := none }, processPage recogC6 pageC6b] := by
  refine ⟨rfl, ?_⟩
  have h := C6_invalid_source_passthrough recogC6 pageC6 [pageC6b]
    (Or.inr ⟨{ valid := false }, rfl, rfl⟩)
  simpa using h

/-- Claim C7: on a page with two non-degenerate regions, if the
capability returns an empty result list for the first, that region
contributes no cells and exactly one warning is logged; processing
continues and the second region's cells are still produced (and there
are some). No exception exists on this path: the loop is total. -/
theorem C7_empty_result_resilience (recognize : ℚ → BBox → List OcrResult) (r1 r2 : BBox)
    (h1 : r1.area ≠ 0) (h2 : r2.area ≠ 0)
    (hempty : recognize scale r1 = [])
    (hsome : flattenPreds (recognize scale r2) ≠ []) :
    (processRects recognize [r1, r2]).warnings = 1 ∧
    (processRects recognize [r1, r2]).all_cells = (processRegion recognize r2).cells ∧
    (processRects recognize [r1, r2]).all_cells ≠ [] := by
  have hpre : recognize scale r2 ≠ [] := by
    intro hc
    exact hsome (by simp [flattenPreds, hc])
  have hr1 : processRegion recognize r1 = { cells := [], invoked := true, warned := true } := by
    simp [processRegion, h1, hempty]
  have hr2c : (processRegion recognize r2).cells =
      (flattenPreds (recognize scale r2)).enum.map fun p => mkCell r2 p.1 p.2 := by
    simp [processRegion, h2, hpre]
  have hr2w : (processRegion recognize r2).warned = false := by
    simp [processRegion, h2, hpre]
  rw [processRects_eq]
  refine ⟨?_, ?_, ?_⟩
  · simp [List.countP_cons, hr1, hr2w]
  · simp [hr1]
  · simp only [List.flatMap_cons, List.flatMap_nil, hr1, List.append_nil, List.nil_append]
    rw [hr2c]
    simp only [ne_eq, List.map_eq_nil_iff, List.enum_eq_nil]
    exact hsome

/-- Claim C7 witness: the capability answers [] on the region at left 0
and one text line on the other; one warning, and only the second
region's cells, which exist. -/
theorem C7_witness :
    (processRects recogC7 [r1C7, r2C7]).warnings = 1 ∧
    (processRects recogC7 [r1C7, r2C7]).all_cells = (processRegion recogC7 r2C7).cells ∧
    (processRects recogC7 [r1C7, r2C7]).all_cells ≠ [] := by
  apply C7_empty_result_resilience
  · norm_num [BBox.area, r1C7]
  · norm_num [BBox.area, r2C7]
  · norm_num [recogC7, r1C7]
  · norm_num [flattenPreds, recogC7, r2C7]

/-- Claim C8: the options schema's `kind`, the tag under which the
factory-listed model class is registered (the `kind` of the options type
its `get_options_type` returns), and the documented identifier are all
the string "suryaocr". -/
theorem C8_plugin_identity :
    ("ocr_engines", [ModelClass.suryaOcrModel]) ∈ ocr_engines ∧
    registrationTag ModelClass.suryaOcrModel = documentedIdentifier ∧
    OptionsType.kind (get_options_type ModelClass.suryaOcrModel) = documentedIdentifier ∧
    OptionsType.kind OptionsType.suryaOcrOptions = documentedIdentifier ∧
    documentedIdentifier = "suryaocr" := by
  exact ⟨List.mem_singleton_self _, rfl, rfl, rfl, rfl⟩

/-- Bounds for one transformed coordinate: if the local coordinate x is
within [0, 3w] and the origin offset lo is within a page extent hi with
room w, then x/3 + lo is within [0, hi]. -/
theorem coordBound (x w lo hi : ℚ) (hx0 : 0 ≤ x) (hx3 : x ≤ 3 * w) (hlo : 0 ≤ lo)
    (hhi : lo + w ≤ hi) : 0 ≤ x / 3 + lo ∧ x / 3 + lo ≤ hi := by
  have h3 : (0:ℚ) < 3 := by norm_num
  have hd : x / 3 ≤ w := by
    rw [div_le_iff₀ h3]
    linarith
  have hd0 : 0 ≤ x / 3 := by positivity
  constructor <;> linarith

/-- Claim C9: if every region of the page lies within the page bounds
and every recognition triple's local bbox lies within the rendered crop
of its region, then every cell accumulated during the page's OCR pass
has its rectangle inside the page coordinate space. -/
theorem C9_cells_inside_page (recognize : ℚ → BBox → List OcrResult) (rects : List BBox)
    (pw ph : ℚ)
    (hrects : ∀ rect ∈ rects, regionInPage pw ph rect)
    (hrecog : ∀ rect ∈ rects, ∀ p ∈ flattenPreds (recognize scale rect), inCrop rect p.1) :
    ∀ cell ∈ (processRects recognize rects).all_cells, insidePage pw ph cell.rect := by
  intro cell hcell
  rw [processRects_eq] at hcell
  rcases List.mem_flatMap.mp hcell with ⟨rect, hrmem, hcmem⟩
  by_cases h0 : rect.area = 0
  · simp [processRegion, h0] at hcmem
  · by_cases hp : recognize scale rect = []
    · simp [processRegion, h0, hp] at hcmem
    · simp only [processRegion, h0, hp, if_neg, if_false] at hcmem
      rcases List.mem_map.mp hcmem with ⟨pe, hpe, hcell_eq⟩
      have hq : pe.2 ∈ flattenPreds (recognize scale rect) := mem_enum_snd hpe
      have hcrop := hrecog rect hrmem pe.2 hq
      have hreg := hrects rect hrmem
      subst hcell_eq
      simp only [regionInPage] at hreg
      simp only [inCrop, scale] at hcrop
      obtain ⟨hl0, hrw, ht0, hbh, hlr, htb⟩ := hreg
      obtain ⟨hx00, hx03, hy00, hy03, hx10, hx13, hy10, hy13⟩ := hcrop
      have c1 := coordBound _ _ _ pw hx00 hx03 hl0 (by linarith)
      have c2 := coordBound _ _ _ ph hy00 hy03 ht0 (by linarith)
      have c3 := coordBound _ _ _ pw hx10 hx13 hl0 (by linarith)
      have c4 := coordBound _ _ _ ph hy10 hy13 ht0 (by linarith)
      simp only [insidePage, mkCell, scale]
      exact ⟨c1.1, c1.2, c3.1, c3.2, c2.1, c2.2, c4.1, c4.2⟩

/-- Claim C9 witness: region (10, 20, 110, 120) on a 200 x 300 page with
a line spanning the whole crop — the one accumulated cell lies inside
the page. -/
theorem C9_witness :
    insidePage 200 300 (mkCell rectC9 0 ((0, 0, 300, 300), "z", 1)).rect := by
  have hmem : mkCell rectC9 0 ((0, 0, 300, 300), "z", 1) ∈
      (processRects recogC9 [rectC9]).all_cells := by
    norm_num [processRects, stepRegion, processRegion, BBox.area, rectC9, recogC9,
      flattenPreds, scale, List.enum]
  refine C9_cells_inside_page recogC9 [rectC9] 200 300 ?_ ?_ _ hmem
  · intro rect hr
    rw [List.mem_singleton] at hr
    subst hr
    norm_num [regionInPage, rectC9]
  · intro rect hr p hp
    rw [List.mem_singleton] at hr
    subst hr
    simp only [flattenPreds, recogC9, List.flatMap_cons, List.flatMap_nil, List.map_cons,
      List.map_nil, List.append_nil, List.mem_singleton] at hp
    subst hp
    norm_num [inCrop, rectC9, scale]

/-- Claim C10: when the capability returns a non-empty result list all
of whose results carry no text lines, the region contributes zero cells
and no warning is logged — the empty-result warning fires only when the
result list itself is empty. -/
theorem C10_empty_lines_silent (recognize : ℚ → BBox → List OcrResult) (rect : BBox)
    (h : rect.area ≠ 0) (hne : recognize scale rect ≠ [])
    (hall : ∀ pred ∈ recognize scale rect, pred.text_lines = []) :
    (processRegion recognize rect).cells = [] ∧
    (processRegion recognize rect).warned = false := by
  have hflat : flattenPreds (recognize scale rect) = [] := by
    rw [flattenPreds, List.flatMap_eq_nil_iff]
    intro pred hpred
    rw [hall pred hpred]
    rfl
  constructor <;> simp [processRegion, h, hne, hflat]

/-- Claim C10 witness: one result with an empty text-line list on a
live region — zero cells, no warning. -/
theorem C10_witness :
    (processRegion recogC10 rectC10).cells = [] ∧
    (processRegion recogC10 rectC10).warned = false := by
  apply C10_empty_lines_silent
  · norm_num [BBox.area, rectC10]
  · simp [recogC10]
  · intro pred hpred
    rw [recogC10, List.mem_singleton] at hpred
    subst hpred
    rfl

end DoclingSurya
